import Mathlib

/-!
Verification of the Living Tapestry simulation engine.

This file shallowly embeds the parts of the engine that the checked
properties are about, translated from the Python sources:

  * `engine/data_models.py`   — value types (NPC, locations, items, events)
  * `engine/world_state.py`   — `update_hunger`, `apply_event`, `find_npc_location`
  * `engine/events.py`        — `make_perception_from_event`
  * `engine/simulator.py`     — `record_perception`, `process_command`, `tick`,
                                the `damage_applied` / `npc_died` handlers
  * `engine/tools/move.py`    — `MoveTool.validate_intent` / `generate_events`
  * `rpg/combat_rules.py`     — ability modifiers, AC, `resolve_attack`

Python `dict`s (which preserve insertion order) are modelled as association
lists, Python `None`-able fields as `Option`, machine integers as `Int`
(Python integers are unbounded), and places where the source raises an
exception either surface as `Except`/`Option` results or are marked in
comments.  Branches of the source that no theorem below exercises
(e.g. the `reason`/`reflect` event handlers) are noted where they are
elided.
-/

namespace Tapestry

/-- Values stored in event payloads and tool parameters
    (`Dict[str, Any]` in the source, restricted to the value shapes the
    engine actually stores in the code paths analysed here). -/
inductive PValue where
  | pstr (s : String)
  | pint (n : Int)
  | pbool (b : Bool)
deriving DecidableEq, Repr

/-- An event payload / parameter dictionary (`Dict[str, Any]`). -/
abbrev Payload := List (String × PValue)

/-- First-match association-list lookup: `dict.get` / `dict[...]`. -/
def assocFind {α : Type} : List (String × α) → String → Option α
  | [], _ => none
  | (k, v) :: rest, key => if k = key then some v else assocFind rest key

/-- In-place mutation of the value stored under a key (Python mutates the
    object held in the dict; entries with other keys are untouched). -/
def assocUpdate {α : Type} : List (String × α) → String → (α → α) → List (String × α)
  | [], _, _ => []
  | kv :: rest, key, f =>
    (if kv.1 = key then (kv.1, f kv.2) else kv) :: assocUpdate rest key f

/-- `dict[key] = v`: overwrite in place, else append (insertion order). -/
def assocSet {α : Type} (l : List (String × α)) (key : String) (v : α) :
    List (String × α) :=
  if (assocFind l key).isSome then assocUpdate l key (fun _ => v) else l ++ [(key, v)]

/-- Python `list.remove`: delete the first occurrence (the callers in
    `world_state.py` guard with `in`, so the `ValueError` path is dead). -/
def removeFirst : List String → String → List String
  | [], _ => []
  | y :: rest, x => if y = x then rest else y :: removeFirst rest x

/-- `payload.get(key, default)` read as an integer (the engine stores
    integers under the keys read this way; a non-integer value would make
    the source raise downstream and is not exercised by these theorems). -/
def payloadInt (p : Payload) (key : String) (d : Int) : Int :=
  match assocFind p key with
  | some (.pint n) => n
  | _ => d

/-- `params.get(key)` when a string is expected. -/
def paramStr (p : Payload) (key : String) : Option String :=
  match assocFind p key with
  | some (.pstr s) => some s
  | _ => none

/-- Python truthiness for payload values. -/
def truthy : PValue → Bool
  | .pstr s => s ≠ ""
  | .pint n => n ≠ 0
  | .pbool b => b

/-- `data_models.Memory` is not inspected by any property below and is
    omitted; `tags` dictionaries carry the two lists the engine uses. -/
structure Tags where
  inherent : List String
  dynamic : List String
deriving DecidableEq, Repr

/-- `data_models.PerceptionEvent` (STM entry). -/
structure PerceptionEvent where
  event_type : String
  tick : Int
  actor_id : Option String
  target_ids : List String
  location_id : Option String
  payload : Payload
deriving DecidableEq, Repr

/-- `events.Event` (core event envelope). -/
structure Event where
  event_type : String
  tick : Int
  actor_id : String
  target_ids : List String
  payload : Payload
deriving DecidableEq, Repr

/-- `data_models.NPC`.  The long-term memory fields (`memories`,
    `core_memories`, `goals`, `relationships`, `known_locations`) are not
    read or written by any operation under verification and are omitted. -/
structure NPC where
  id : String
  name : String
  inventory : List String
  slots : List (String × Option String)
  hp : Int
  tags : Tags
  short_term_memory : List PerceptionEvent
  next_available_tick : Int
  last_meal_tick : Int
  hunger_stage : String
  attributes : List (String × Int)
  skills : List (String × String)
deriving DecidableEq, Repr

/-- `data_models.LocationStatic`. -/
structure LocationStatic where
  id : String
  description : String
  tags : Tags
  hex_connections : List (String × String)
deriving DecidableEq, Repr

/-- One `connections_state` entry: a dict that may lack either key. -/
structure ConnEntry where
  status : Option String
  direction : Option String
deriving DecidableEq, Repr

/-- `data_models.LocationState`. -/
structure LocationState where
  id : String
  occupants : List String
  items : List String
  sublocations : List String
  transient_effects : List String
  connections_state : List (String × ConnEntry)
deriving DecidableEq, Repr

/-- `data_models.ItemBlueprint`. -/
structure ItemBlueprint where
  id : String
  name : String
  weight : Int
  damage_dice : String
  damage_type : String
  armour_rating : Int
  skill_tag : String
  properties : List String
deriving DecidableEq, Repr

/-- `data_models.ItemInstance` (`item_state`, container `inventory` and
    `tags` are untouched by the verified operations and omitted). -/
structure ItemInstance where
  id : String
  blueprint_id : String
  current_location : Option String
  owner_id : Option String
deriving DecidableEq, Repr

/-- `world_state.WorldState`: the canonical store (the on-disk loader is
    out of scope; dictionaries are association lists in insertion order). -/
structure WorldState where
  npcs : List (String × NPC)
  locations_static : List (String × LocationStatic)
  locations_state : List (String × LocationState)
  item_blueprints : List (String × ItemBlueprint)
  item_instances : List (String × ItemInstance)
deriving DecidableEq, Repr

/-- Helper for `WorldState.find_npc_location`: first location (in dict
    order) whose occupants contain the id. -/
def findNpcLocationAux (npcId : String) : List (String × LocationState) → Option String
  | [] => none
  | (locId, st) :: rest =>
    if npcId ∈ st.occupants then some locId else findNpcLocationAux npcId rest

/-- `WorldState.find_npc_location`. -/
def findNpcLocation (w : WorldState) (npcId : String) : Option String :=
  findNpcLocationAux npcId w.locations_state

/-- `npc.attributes.get(key, 10)`. -/
def getAttr (npc : NPC) (key : String) : Int :=
  (assocFind npc.attributes key).getD 10

/-! ## Combat rules (`rpg/combat_rules.py`)

The dice rolls drawn from the engine PRNG are passed in as explicit
arguments (`d20`, and the one or two damage-dice outcomes), since
`resolve_attack` is otherwise pure. -/

/-- `combat_rules.ability_modifier`: Python floor division `(score-10)//2`. -/
def ability_modifier (score : Int) : Int := Int.fdiv (score - 10) 2

/-- `combat_rules.proficiency_bonus`: the fixed `_PROFICIENCY_MAP` with
    default 0. -/
def proficiency_bonus (level : String) : Int :=
  if level = "novice" then 1
  else if level = "proficient" then 2
  else if level = "expert" then 3
  else if level = "master" then 4
  else 0

/-- `combat_rules._DEFAULT_UNARMED`. -/
def defaultUnarmed : ItemBlueprint :=
  { id := "unarmed", name := "Unarmed", weight := 0, damage_dice := "1d4",
    damage_type := "bludgeoning", armour_rating := 0,
    skill_tag := "unarmed_combat", properties := [] }

/-- `combat_rules.get_weapon`.  `none` models the `KeyError` the source
    raises when the equipped instance's blueprint is missing from the
    catalog; an empty or dangling `main_hand` entry falls back to the
    unarmed blueprint exactly as in the source. -/
def get_weapon (w : WorldState) (actor : NPC) : Option ItemBlueprint :=
  match (assocFind actor.slots "main_hand").join with
  | some instId =>
    if instId ≠ "" then
      match assocFind w.item_instances instId with
      | some inst => assocFind w.item_blueprints inst.blueprint_id
      | none => some defaultUnarmed
    else some defaultUnarmed
  | none => some defaultUnarmed

/-- One step of the `compute_ac` armour summation over `actor.slots.values()`:
    `none` propagates the `KeyError` of a missing blueprint. -/
def acStep (w : WorldState) (acc : Option Int) (instId? : Option String) : Option Int :=
  match acc, instId? with
  | none, _ => none
  | some ac, some instId =>
    if instId ≠ "" then
      match assocFind w.item_instances instId with
      | some inst =>
        match assocFind w.item_blueprints inst.blueprint_id with
        | some bp => some (ac + bp.armour_rating)
        | none => none
      | none => some ac
    else some ac
  | some ac, none => some ac

/-- `combat_rules.compute_ac`: 10, plus armour over equipped items, plus the
    dexterity modifier. -/
def compute_ac (w : WorldState) (actor : NPC) : Option Int :=
  match actor.slots.foldl (fun acc kv => acStep w acc kv.2) (some 10) with
  | none => none
  | some ac => some (ac + ability_modifier (getAttr actor "dexterity"))

/-- The result dictionary of `combat_rules.resolve_attack`. -/
structure AttackResult where
  hit : Bool
  damage : Int
  to_hit : Int
  target_ac : Int
deriving DecidableEq, Repr

/-- `combat_rules.resolve_attack` with the PRNG outcomes made explicit:
    `d20` is the attack roll, `dmg1` the damage-dice roll, and `dmg2` the
    extra damage-dice roll consumed only on a natural 20. -/
def resolve_attack (w : WorldState) (attacker target : NPC)
    (d20 dmg1 dmg2 : Int) : Option AttackResult :=
  match get_weapon w attacker with
  | none => none
  | some weapon =>
    let strMod := ability_modifier (getAttr attacker "strength")
    let dexMod := ability_modifier (getAttr attacker "dexterity")
    let attrMod := if "finesse" ∈ weapon.properties then max strMod dexMod else strMod
    let profBonus := proficiency_bonus ((assocFind attacker.skills weapon.skill_tag).getD "")
    let toHit := d20 + attrMod + profBonus
    match compute_ac w target with
    | none => none
    | some targetAc =>
      let hit := decide (toHit ≥ targetAc)
      let critical := decide (d20 = 20)
      let damage := if hit then dmg1 + (if critical then dmg2 else 0) + attrMod else 0
      some { hit := hit, damage := damage, to_hit := toHit, target_ac := targetAc }

/-! ## Hunger (`WorldState.update_hunger`) -/

/-- The per-agent body of the `update_hunger` loop (thresholds 20 / 40). -/
def hungerStep (currentTick : Int) (npc : NPC) : NPC × List Event :=
  if "dead" ∈ npc.tags.dynamic then (npc, [])
  else
    let ticksSince := currentTick - npc.last_meal_tick
    if ticksSince ≥ 40 then
      ({ npc with hunger_stage := "starving" },
       [{ event_type := "damage_applied", tick := currentTick, actor_id := npc.id,
          target_ids := [npc.id],
          payload := [("amount", .pint 1), ("damage_type", .pstr "starvation")] }])
    else if ticksSince ≥ 20 then ({ npc with hunger_stage := "hungry" }, [])
    else ({ npc with hunger_stage := "sated" }, [])

/-- `WorldState.update_hunger`: iterate every agent in dict order, mutate
    its hunger stage and collect the emitted events. -/
def update_hunger (w : WorldState) (currentTick : Int) : WorldState × List Event :=
  ({ w with npcs := w.npcs.map (fun kv => (kv.1, (hungerStep currentTick kv.2).1)) },
   (w.npcs.map (fun kv => (hungerStep currentTick kv.2).2)).flatten)

/-! ## Perception projection (`events.make_perception_from_event`) -/

/-- `events.make_perception_from_event`.  The source constructor call
    passes `event_type`, `tick`, `actor_id`, `location_id` and
    `payload.copy()` but does not pass `target_ids`, so the dataclass
    default (the empty list) applies. -/
def make_perception_from_event (origin : Event) (location_id : Option String) :
    PerceptionEvent :=
  { event_type := origin.event_type, tick := origin.tick,
    actor_id := some origin.actor_id,
    target_ids := [],
    location_id := location_id, payload := origin.payload }

/-! ## Event application (`WorldState.apply_event`)

The dispatch below translates the branches the theorems in this file
exercise: `grab`, `drop`, `damage_applied` and `npc_died`.  The remaining
branches of the source (`move`, `eat`, `rest`, `equip`, `unequip`, `give`,
`open_connection`, `close_connection`, `reason`, `reflect`) are never
reached under the hypotheses of any theorem below and are elided; as in
the source, an unknown `event_type` leaves the world untouched. -/

/-- `WorldState.apply_event`, `grab` branch. -/
def applyGrab (w : WorldState) (ev : Event) : WorldState :=
  match ev.target_ids.head? with
  | none => w    -- the source raises IndexError here; engine grab events carry the item id
  | some itemId =>
    match findNpcLocation w ev.actor_id with
    | none => w
    | some locId =>
      if locId ≠ "" then
        match assocFind w.locations_state locId with
        | none => w  -- unreachable: find_npc_location returned this key
        | some locSt =>
          if itemId ∈ locSt.items then
            let ls := assocUpdate w.locations_state locId
              (fun st => { st with items := removeFirst st.items itemId })
            let ns := assocUpdate w.npcs ev.actor_id
              (fun n => { n with inventory := n.inventory ++ [itemId] })
            let insts := assocUpdate w.item_instances itemId
              (fun inst => { inst with owner_id := some ev.actor_id, current_location := none })
            { w with locations_state := ls, npcs := ns, item_instances := insts }
          else w
      else w

/-- `WorldState.apply_event`, `drop` branch. -/
def applyDrop (w : WorldState) (ev : Event) : WorldState :=
  match ev.target_ids.head? with
  | none => w    -- the source raises IndexError here
  | some itemId =>
    match findNpcLocation w ev.actor_id with
    | none => w
    | some locId =>
      if locId ≠ "" then
        match assocFind w.npcs ev.actor_id with
        | none => w  -- the source raises KeyError (`self.npcs[actor_id]`); actors are loaded npcs
        | some npc =>
          if itemId ∈ npc.inventory then
            let ns := assocUpdate w.npcs ev.actor_id
              (fun n => { n with inventory := removeFirst n.inventory itemId })
            let ls := assocUpdate w.locations_state locId
              (fun st => { st with items := st.items ++ [itemId] })
            let insts := assocUpdate w.item_instances itemId
              (fun inst => { inst with owner_id := none, current_location := some locId })
            { w with npcs := ns, locations_state := ls, item_instances := insts }
          else w
      else w

/-- `WorldState.apply_event`, `damage_applied` branch:
    `hp := max(hp - amount, 0)`. -/
def applyDamage (w : WorldState) (ev : Event) : WorldState :=
  match ev.target_ids.head? with
  | none => w    -- the source raises IndexError here
  | some targetId =>
    let amount := payloadInt ev.payload "amount" 0
    let ns := assocUpdate w.npcs targetId (fun n => { n with hp := max (n.hp - amount) 0 })
    { w with npcs := ns }

/-- Marks an agent dead (`npc.tags.setdefault("dynamic", []).append("dead")`
    guarded by the membership test). -/
def markDead (n : NPC) : NPC :=
  if "dead" ∈ n.tags.dynamic then n
  else { n with tags := { n.tags with dynamic := n.tags.dynamic ++ ["dead"] } }

/-- `WorldState.apply_event`, `npc_died` branch: when the agent occupies a
    location it is removed from the occupants and its inventory and
    equipped items are dropped there; the dead tag is added in any case. -/
def applyNpcDied (w : WorldState) (ev : Event) : WorldState :=
  match assocFind w.npcs ev.actor_id with
  | none => w
  | some npc =>
    let w1 :=
      match findNpcLocation w npc.id with
      | none => w
      | some locId =>
        if locId ≠ "" then
          match assocFind w.locations_state locId with
          | none => w  -- unreachable: find_npc_location returned this key
          | some locSt =>
            if npc.id ∈ locSt.occupants then
              let allItems := npc.inventory ++ npc.slots.filterMap Prod.snd
              let dropHere := fun (st : LocationState) =>
                { st with occupants := removeFirst st.occupants npc.id, items := st.items ++ allItems }
              let ls := assocUpdate w.locations_state locId dropHere
              let insts := allItems.foldl (fun (acc : List (String × ItemInstance)) (it : String) =>
                assocUpdate acc it (fun inst =>
                  { inst with owner_id := none, current_location := some locId }))
                w.item_instances
              let clearItems := fun (n : NPC) =>
                { n with inventory := ([] : List String), slots := n.slots.map (fun (kv : String × Option String) => (kv.1, (none : Option String))) }
              let ns := assocUpdate w.npcs ev.actor_id clearItems
              { w with locations_state := ls, item_instances := insts, npcs := ns }
            else w
        else w
    { w1 with npcs := assocUpdate w1.npcs ev.actor_id markDead }

/-- `WorldState.apply_event`. -/
def applyEvent (w : WorldState) (ev : Event) : WorldState :=
  if ev.event_type = "grab" then applyGrab w ev
  else if ev.event_type = "drop" then applyDrop w ev
  else if ev.event_type = "damage_applied" then applyDamage w ev
  else if ev.event_type = "npc_died" then applyNpcDied w ev
  else w

/-! ## Perception fan-out (`Simulator.record_perception`) -/

/-- The visual event subset named in `record_perception`. -/
def visualEvents : List String :=
  ["grab", "drop", "equip", "unequip", "attack_hit", "attack_missed",
   "damage_applied", "inventory", "stats", "analyze"]

/-- `conn.get("status", "open")` for the edge from `st` to `nb`
    (a missing entry or a missing `status` key both default to open). -/
def connStatusD (st : LocationState) (nb : String) : String :=
  match assocFind st.connections_state nb with
  | some c => c.status.getD "open"
  | none => "open"

/-- The primary location of a perceived event (`record_perception` lines
    1502–1507): move and npc_died read it from `target_ids`, everything
    else uses the actor's current location. -/
def perceptionLocation (w : WorldState) (ev : Event) : Option String :=
  if ev.event_type = "move" then ev.target_ids.head?
  else if ev.event_type = "npc_died" then ev.target_ids.head?
  else findNpcLocation w ev.actor_id

/-- The neighbor loop of the noise-propagation block: occupants of each
    neighbor are collected when the event is a scream or the edge is open.
    A neighbor with no dynamic state makes `get_location_state` raise,
    which the surrounding `try` turns into abandoning the rest of the
    loop while keeping the recipients gathered so far. -/
def noiseNeighborsAux (w : WorldState) (evType : String) (stateHere : LocationState) :
    List String → List String
  | [] => []
  | nb :: rest =>
    if evType = "scream" ∨ connStatusD stateHere nb = "open" then
      match assocFind w.locations_state nb with
      | none => []
      | some nbState => nbState.occupants ++ noiseNeighborsAux w evType stateHere rest
    else noiseNeighborsAux w evType stateHere rest

/-- The recipient set computed by `record_perception`: occupants of the
    primary location except the actor, plus — for scream and talk_loud
    only — occupants of static hex neighbors per `noiseNeighborsAux`.
    The source's elevated-vantage-point block (lines 1543–1553) binds the
    visual event set and the recipient's inherent tags but ends in `pass`,
    adding no recipients, so it contributes nothing here.
    The source collects recipients into a Python set; only membership is
    observable, and duplicates are dropped with `dedup`. -/
def perceptionRecipients (w : WorldState) (ev : Event) (locId : String) : List String :=
  let direct :=
    match assocFind w.locations_state locId with
    | some st => st.occupants.filter (fun o => o ≠ ev.actor_id)
    | none => []
  let noise :=
    if ev.event_type = "scream" ∨ ev.event_type = "talk_loud" then
      match assocFind w.locations_static locId, assocFind w.locations_state locId with
      | some stat, some stHere =>
        noiseNeighborsAux w ev.event_type stHere (stat.hex_connections.map Prod.snd)
      | _, _ => []
    else []
  (direct ++ noise).dedup

/-- STM append with the buffer cap: append, then pop from the front while
    the length exceeds the cap. -/
def cappedAppend (cap : Nat) (stm : List PerceptionEvent) (pe : PerceptionEvent) :
    List PerceptionEvent :=
  let grown := stm ++ [pe]
  grown.drop (grown.length - cap)

/-- The per-recipient STM append of `record_perception` (agents outside
    the recipient set are untouched). -/
def stmTouch (cap : Nat) (recips : List String) (pe : PerceptionEvent)
    (key : String) (n : NPC) : NPC :=
  if key ∈ recips
  then { n with short_term_memory := cappedAppend cap n.short_term_memory pe }
  else n

/-- `Simulator.record_perception`: project the event and append it to every
    recipient's STM buffer (recipient ids that are not loaded npcs are
    skipped by the source's per-npc `try`, which the keyed map mirrors). -/
def record_perception (cap : Nat) (w : WorldState) (ev : Event) : WorldState :=
  if ev.event_type = "describe_location" ∨ ev.event_type = "wait" then w
  else
    match perceptionLocation w ev with
    | none => w
    | some locId =>
      if locId = "" then w
      else
        let recips := perceptionRecipients w ev locId
        let pe := make_perception_from_event ev (some locId)
        let ns := w.npcs.map (fun kv => (kv.1, stmTouch cap recips pe kv.1 kv.2))
        { w with npcs := ns }

/-! ## Simulator state, event handling and the tick loop
(`Simulator.tick`, `Simulator.handle_event`, the `damage_applied` and
`npc_died` handlers).

The simulator fields that no theorem below inspects (conversations, the
narrator, renderer caches, the planner) are omitted; narration and the
conversation garbage collector neither read nor write the world-state
components these theorems are about. -/

/-- The simulator state the verified operations touch. -/
structure Sim where
  world : WorldState
  game_tick : Int
  event_queue : List Event
  starvation_enabled : Bool
  perception_buffer_size : Nat
deriving DecidableEq, Repr

/-- The `npc_died` follow-up event enqueued by `_handle_damage_applied`:
    stamped at the current tick, actor = the dying agent, `target_ids`
    carrying the death location (empty when the agent occupies no
    location or its location id is falsy). -/
def deathFollowUp (w : WorldState) (tgt : NPC) (tk : Int) : Event :=
  { event_type := "npc_died", tick := tk, actor_id := tgt.id,
    target_ids :=
      match findNpcLocation w tgt.id with
      | some l => if l ≠ "" then [l] else []
      | none => [],
    payload := [] }

/-- `Simulator.handle_event`: dispatch the per-type handler, then record
    perception.  The `damage_applied` handler (`_handle_damage_applied`)
    applies the event and, when the target's hp has reached 0 and it is
    not already dead, enqueues an `npc_died` follow-up at the current
    tick.  `npc_died` and the other applied event types reduce to
    `apply_event` plus narration; narration, the actor-bubble cache and
    conversation GC do not touch the world components inspected below
    and are elided. -/
def handleEvent (s : Sim) (ev : Event) : Sim :=
  let s1 :=
    if ev.event_type = "damage_applied" then
      let w := applyEvent s.world ev
      match ev.target_ids.head? with
      | none => { s with world := w }  -- the source raises IndexError in the handler
      | some tid =>
        match assocFind w.npcs tid with
        | none => { s with world := w }  -- the source raises KeyError (`get_npc`)
        | some tgt =>
          if tgt.hp ≤ 0 ∧ "dead" ∉ tgt.tags.dynamic then
            { s with world := w, event_queue := s.event_queue ++ [deathFollowUp w tgt s.game_tick] }
          else { s with world := w }
    else { s with world := applyEvent s.world ev }
  { s1 with world := record_perception (max 1 s1.perception_buffer_size) s1.world ev }

/-- `Simulator.tick`: advance time by one, extend the queue with hunger
    events when starvation is enabled, then drain the snapshot of events
    whose tick is ≤ the new current tick.  Events enqueued by handlers
    during the drain go to the live queue, not the snapshot. -/
def tick (s : Sim) : Sim :=
  let t := s.game_tick + 1
  let s1 := { s with game_tick := t }
  let s2 :=
    if s1.starvation_enabled then
      let hu := update_hunger s1.world t
      { s1 with world := hu.1, event_queue := s1.event_queue ++ hu.2 }
    else s1
  let ready := s2.event_queue.filter (fun e => e.tick ≤ t)
  let s3 := { s2 with event_queue := s2.event_queue.filter (fun e => ¬ e.tick ≤ t) }
  ready.foldl handleEvent s3

/-! ## Tools and command processing
(`engine/tools/move.py`, `Simulator.process_command`) -/

/-- A registered tool (`tools/base.py`): name, time cost, intent
    validation and event generation. -/
structure ToolSpec where
  name : String
  time_cost : Int
  validate : Payload → WorldState → NPC → Bool
  generate : Payload → WorldState → NPC → Int → List Event

/-- `MoveTool.validate_intent`: the target must be a loaded dynamic
    location, the actor must have a current location, the target must
    appear in its dynamic `connections_state`, and the edge status
    (defaulting to open when the key is absent) must be `"open"`. -/
def moveValidate (p : Payload) (w : WorldState) (actor : NPC) : Bool :=
  match paramStr p "target_location" with
  | none => false
  | some t =>
    if t = "" then false
    else if (assocFind w.locations_state t).isNone then false
    else
      match findNpcLocation w actor.id with
      | none => false
      | some cur =>
        if cur = "" then false
        else
          match assocFind w.locations_state cur with
          | none => false  -- the source raises KeyError (`get_location_state`)
          | some st =>
            if (assocFind st.connections_state t).isNone then false
            else if connStatusD st t = "open" then true else false

/-- `MoveTool.generate_events` (the tool is only invoked after a
    successful `validate_intent`, so the parameter is present). -/
def moveGenerate (p : Payload) (_w : WorldState) (actor : NPC) (tk : Int) : List Event :=
  match paramStr p "target_location" with
  | none => []  -- the source raises KeyError (`intent["target_location"]`); unreachable after validation
  | some dest =>
    [{ event_type := "move", tick := tk, actor_id := actor.id, target_ids := [dest],
       payload := [("to_location_id", .pstr dest)] }]

/-- The `move` tool as registered (`MoveTool(time_cost=5)`). -/
def moveTool : ToolSpec :=
  { name := "move", time_cost := 5, validate := moveValidate, generate := moveGenerate }

/-- The typed error surface of `process_command` (§7 of the spec): the
    `KeyError` of `get_npc`, and the three `ValueError`s raised for an
    unknown tool, a busy actor, and a failed intent validation.  The
    source raises before any world mutation, so an error leaves the
    state unchanged by construction. -/
inductive CmdError where
  | lookup
  | unknownTool
  | busy
  | invalidIntent
deriving DecidableEq, Repr

/-- First truthy value among the given parameter keys (the Python
    `a or b or c` alias chain over `params.get`). -/
def firstTruthy (p : Payload) : List String → Option PValue
  | [] => none
  | k :: rest =>
    match assocFind p k with
    | some v => if truthy v then some v else firstTruthy p rest
    | none => firstTruthy p rest

/-- The alias-normalization block of `process_command` for the `move` /
    `open` / `close` tools: the first truthy alias value, when it is a
    string, is written back under `target_location`.  The alias branches
    for the other tool names (attack, talk, give, equip) are not
    exercised by the theorems below and are elided. -/
def normalizeParams (toolName : String) (p : Payload) : Payload :=
  if toolName = "move" ∨ toolName = "open" ∨ toolName = "close" then
    match firstTruthy p ["target_location", "location_id", "target", "to"] with
    | some (.pstr s) => assocSet p "target_location" (.pstr s)
    | _ => p
  else p

/-- `Simulator.process_command`.  The source order is: look up the tool
    without raising, look up the actor (`get_npc` raises first), then
    fail on an unregistered tool, then on a busy actor, then normalize
    parameters and validate the intent; only then are events generated,
    enqueued, and the actor's availability clock advanced. -/
def process_command (tools : List (String × ToolSpec)) (s : Sim)
    (actorId : String) (cmdTool : String) (cmdParams : Payload) : Except CmdError Sim :=
  let tool? := assocFind tools cmdTool
  match assocFind s.world.npcs actorId with
  | none => .error .lookup
  | some actor =>
    match tool? with
    | none => .error .unknownTool
    | some tool =>
      if actor.next_available_tick > s.game_tick then .error .busy
      else
        let p := normalizeParams cmdTool cmdParams
        if tool.validate p s.world actor then
          let timeCost :=
            if tool.name = "wait" ∨ tool.name = "rest"
            then max 1 (payloadInt p "ticks" 1)
            else tool.time_cost
          let evs := tool.generate p s.world actor s.game_tick
          let ns := assocUpdate s.world.npcs actorId
            (fun n => { n with next_available_tick := s.game_tick + timeCost })
          let w1 := { s.world with npcs := ns }
          .ok { s with world := w1, event_queue := s.event_queue ++ evs }
        else .error .invalidIntent

/-! ## Association-list lemmas shared by the theorems below -/

theorem assocFind_cons {α : Type} (a : String) (v : α) (rest : List (String × α)) (k : String) :
    assocFind ((a, v) :: rest) k = if a = k then some v else assocFind rest k := rfl

theorem assocUpdate_cons {α : Type} (a : String) (v : α) (rest : List (String × α))
    (k : String) (f : α → α) :
    assocUpdate ((a, v) :: rest) k f =
      (if a = k then (a, f v) else (a, v)) :: assocUpdate rest k f := rfl

theorem assocFind_update_self {α : Type} (l : List (String × α)) (k : String) (f : α → α) :
    assocFind (assocUpdate l k f) k = (assocFind l k).map f := by
  induction l with
  | nil => rfl
  | cons kv rest ih =>
    obtain ⟨a, v⟩ := kv
    by_cases h : a = k
    · subst h
      rw [assocUpdate_cons, if_pos rfl, assocFind_cons, if_pos rfl, assocFind_cons, if_pos rfl]
      rfl
    · rw [assocUpdate_cons, if_neg h, assocFind_cons, if_neg h, assocFind_cons, if_neg h, ih]

theorem assocFind_update_ne {α : Type} (l : List (String × α)) (k k' : String) (f : α → α)
    (h : k' ≠ k) :
    assocFind (assocUpdate l k f) k' = assocFind l k' := by
  induction l with
  | nil => rfl
  | cons kv rest ih =>
    obtain ⟨a, v⟩ := kv
    by_cases hk : a = k
    · have hne : a ≠ k' := fun hx => h (hx ▸ hk)
      rw [assocUpdate_cons, if_pos hk, assocFind_cons, if_neg hne, assocFind_cons, if_neg hne, ih]
    · rw [assocUpdate_cons, if_neg hk, assocFind_cons, assocFind_cons]
      by_cases hk' : a = k'
      · rw [if_pos hk', if_pos hk']
      · rw [if_neg hk', if_neg hk', ih]

theorem assocFind_keyedMap {α : Type} (g : String → α → α) (l : List (String × α)) (k : String) :
    assocFind (l.map (fun kv => (kv.1, g kv.1 kv.2))) k = (assocFind l k).map (g k) := by
  induction l with
  | nil => rfl
  | cons kv rest ih =>
    obtain ⟨a, v⟩ := kv
    show assocFind ((a, g a v) :: rest.map (fun kv => (kv.1, g kv.1 kv.2))) k =
      (assocFind ((a, v) :: rest) k).map (g k)
    by_cases h : a = k
    · subst h
      rw [assocFind_cons, if_pos rfl, assocFind_cons, if_pos rfl]
      rfl
    · rw [assocFind_cons, if_neg h, assocFind_cons, if_neg h, ih]

/-- The observable agent fields `record_perception` cannot change. -/
def npcCore (n : NPC) :
    String × Int × Tags × List String × List (String × Option String) :=
  (n.id, n.hp, n.tags, n.inventory, n.slots)

theorem stmTouch_npcCore (cap : Nat) (recips : List String) (pe : PerceptionEvent)
    (key : String) (n : NPC) : npcCore (stmTouch cap recips pe key n) = npcCore n := by
  unfold stmTouch
  split <;> rfl

theorem record_perception_shape (cap : Nat) (w : WorldState) (ev : Event) :
    ∃ ns, record_perception cap w ev = { w with npcs := ns } := by
  unfold record_perception
  split
  · exact ⟨w.npcs, rfl⟩
  split
  · exact ⟨w.npcs, rfl⟩
  split
  · exact ⟨w.npcs, rfl⟩
  · exact ⟨_, rfl⟩

theorem record_perception_npcCore (cap : Nat) (w : WorldState) (ev : Event) (k : String) :
    (assocFind (record_perception cap w ev).npcs k).map npcCore =
      (assocFind w.npcs k).map npcCore := by
  unfold record_perception
  split
  · rfl
  split
  · rfl
  split
  · rfl
  · rw [assocFind_keyedMap]
    cases assocFind w.npcs k with
    | none => rfl
    | some n =>
      rw [Option.map_map]
      show some (npcCore (stmTouch _ _ _ k n)) = some (npcCore n)
      rw [stmTouch_npcCore]

theorem record_perception_locations (cap : Nat) (w : WorldState) (ev : Event) :
    (record_perception cap w ev).locations_state = w.locations_state := by
  obtain ⟨ns, h⟩ := record_perception_shape cap w ev
  rw [h]

theorem removeFirst_append_self (l : List String) (x : String) (h : x ∉ l) :
    removeFirst (l ++ [x]) x = l := by
  induction l with
  | nil => simp [removeFirst]
  | cons y rest ih =>
    have hy : y ≠ x := by intro he; exact h (he ▸ List.mem_cons_self y rest)
    have hr : x ∉ rest := fun hm => h (List.mem_cons_of_mem y hm)
    simp [removeFirst, hy, ih hr]

theorem removeFirst_perm (l : List String) (x : String) (h : x ∈ l) :
    (removeFirst l x ++ [x]).Perm l := by
  induction l with
  | nil => cases h
  | cons y rest ih =>
    by_cases hy : y = x
    · subst hy
      simp only [removeFirst, if_pos rfl]
      calc (rest ++ [y]).Perm ([y] ++ rest) := List.perm_append_comm
        _ = y :: rest := rfl
    · have hr : x ∈ rest := by
        rcases List.mem_cons.mp h with h1 | h2
        · exact absurd h1.symm hy
        · exact h2
      simp only [removeFirst, if_neg hy, List.cons_append]
      exact (ih hr).cons y

/-! ## The armour summation underlying `compute_ac` -/

/-- The armour contribution of a single slot value: the `armour_rating` of
    the blueprint of a resolvable equipped instance, and 0 otherwise. -/
def armourContrib (w : WorldState) : Option String → Int
  | none => 0
  | some instId =>
    if instId ≠ "" then
      match assocFind w.item_instances instId with
      | some inst =>
        match assocFind w.item_blueprints inst.blueprint_id with
        | some bp => bp.armour_rating
        | none => 0
      | none => 0
    else 0

/-- Summed `armour_rating` across equipped items, as the spec words it. -/
def armourSumList (w : WorldState) : List (Option String) → Int
  | [] => 0
  | a :: l => armourContrib w a + armourSumList w l

theorem acStep_bot (w : WorldState) (l : List (Option String)) :
    l.foldl (acStep w) none = none := by
  induction l with
  | nil => rfl
  | cons a l ih => rw [List.foldl_cons, show acStep w none a = none from rfl, ih]

theorem acStep_some (w : WorldState) (i j : Int) (a : Option String)
    (h : acStep w (some i) a = some j) : j = i + armourContrib w a := by
  cases a with
  | none =>
    simp only [acStep] at h
    injection h with h
    simp [armourContrib, ← h]
  | some instId =>
    by_cases hs : instId ≠ ""
    · simp only [acStep, if_pos hs] at h
      cases hinst : assocFind w.item_instances instId with
      | none =>
        rw [hinst] at h
        injection h with h
        simp [armourContrib, if_pos hs, hinst, ← h]
      | some inst =>
        simp only [hinst] at h
        cases hbp : assocFind w.item_blueprints inst.blueprint_id with
        | none => simp only [hbp] at h; cases h
        | some bp =>
          simp only [hbp] at h
          injection h with h
          simp [armourContrib, if_pos hs, hinst, hbp, ← h]
    · simp only [acStep, if_neg hs] at h
      injection h with h
      simp [armourContrib, if_neg hs, ← h]

theorem acFold_some (w : WorldState) (l : List (Option String)) :
    ∀ i j : Int, l.foldl (acStep w) (some i) = some j → j = i + armourSumList w l := by
  induction l with
  | nil =>
    intro i j h
    injection h with h
    simp [armourSumList, h]
  | cons a l ih =>
    intro i j h
    rw [List.foldl_cons] at h
    cases ha : acStep w (some i) a with
    | none => rw [ha, acStep_bot] at h; cases h
    | some i2 =>
      rw [ha] at h
      have h2 := ih i2 j h
      have h3 := acStep_some w i i2 a ha
      simp [armourSumList]
      omega

theorem compute_ac_spec (w : WorldState) (actor : NPC) (ac : Int)
    (h : compute_ac w actor = some ac) :
    ac = 10 + armourSumList w (actor.slots.map Prod.snd)
      + ability_modifier (getAttr actor "dexterity") := by
  unfold compute_ac at h
  have hfold : actor.slots.foldl (fun acc kv => acStep w acc kv.2) (some 10)
      = (actor.slots.map Prod.snd).foldl (acStep w) (some 10) := by
    rw [List.foldl_map]
  rw [hfold] at h
  cases hres : (actor.slots.map Prod.snd).foldl (acStep w) (some 10) with
  | none => rw [hres] at h; cases h
  | some base =>
    rw [hres] at h
    injection h with h
    have := acFold_some w (actor.slots.map Prod.snd) 10 base hres
    omega

/-! ## Concrete fixtures for witnesses and counterexamples -/

/-- A minimal agent record used to build concrete scenarios. -/
def npcBase : NPC :=
  { id := "npc_base", name := "Base", inventory := [], slots := [], hp := 10,
    tags := { inherent := [], dynamic := [] }, short_term_memory := [],
    next_available_tick := 0, last_meal_tick := 0, hunger_stage := "sated",
    attributes := [], skills := [] }

/-- A world with no entities, for instantiating agent-local statements. -/
def emptyWorld : WorldState :=
  { npcs := [], locations_static := [], locations_state := [],
    item_blueprints := [], item_instances := [] }

/-! ## C5 — hunger stages and the starvation damage event -/

/-- C5: for every non-dead agent, `update_hunger` derives
    Δ = current_tick − last_meal_tick and sets starving with exactly one
    damage_applied(1, starvation) self-targeted event when Δ ≥ 40, hungry
    with no event when 20 ≤ Δ < 40, and sated with no event when Δ < 20
    (hence the boundaries 19 → sated, 20 and 39 → hungry, 40 → starving);
    dead agents are skipped entirely.  `update_hunger` applies exactly the
    per-agent step `hungerStep` to every agent in order and concatenates
    the emitted events. -/
theorem update_hunger_stages (w : WorldState) (t : Int) :
    (update_hunger w t).1.npcs = w.npcs.map (fun kv => (kv.1, (hungerStep t kv.2).1)) ∧
    (update_hunger w t).2 = (w.npcs.map (fun kv => (hungerStep t kv.2).2)).flatten ∧
    ∀ npc : NPC,
      ("dead" ∈ npc.tags.dynamic → hungerStep t npc = (npc, [])) ∧
      ("dead" ∉ npc.tags.dynamic →
        (40 ≤ t - npc.last_meal_tick →
          hungerStep t npc =
            ({ npc with hunger_stage := "starving" },
             [{ event_type := "damage_applied", tick := t, actor_id := npc.id,
                target_ids := [npc.id],
                payload := [("amount", .pint 1), ("damage_type", .pstr "starvation")] }])) ∧
        (20 ≤ t - npc.last_meal_tick → t - npc.last_meal_tick < 40 →
          hungerStep t npc = ({ npc with hunger_stage := "hungry" }, [])) ∧
        (t - npc.last_meal_tick < 20 →
          hungerStep t npc = ({ npc with hunger_stage := "sated" }, []))) := by
  refine ⟨rfl, rfl, fun npc => ⟨fun hd => ?_, fun hd => ⟨fun h40 => ?_, fun h20 h40 => ?_, fun h19 => ?_⟩⟩⟩
  · simp only [hungerStep]
    rw [if_pos hd]
  · simp only [hungerStep]
    rw [if_neg hd, if_pos h40]
  · simp only [hungerStep]
    rw [if_neg hd, if_neg (by omega : ¬ t - npc.last_meal_tick ≥ 40), if_pos h20]
  · simp only [hungerStep]
    rw [if_neg hd, if_neg (by omega : ¬ t - npc.last_meal_tick ≥ 40),
        if_neg (by omega : ¬ t - npc.last_meal_tick ≥ 20)]

/-- C5 witness: a concrete agent exactly at the Δ = 40 boundary turns
    starving and emits the single starvation damage event. -/
theorem update_hunger_stages_witness :
    hungerStep 40 npcBase =
      ({ npcBase with hunger_stage := "starving" },
       [{ event_type := "damage_applied", tick := 40, actor_id := npcBase.id,
          target_ids := [npcBase.id],
          payload := [("amount", .pint 1), ("damage_type", .pstr "starvation")] }]) :=
  (((update_hunger_stages emptyWorld 40).2.2 npcBase).2 (by decide)).1 (by decide)

/-! ## C7 — attack resolution -/

/-- C7: `resolve_attack` uses attr_mod = max(str, dex) modifiers exactly
    for finesse weapons (else the strength modifier), with
    `ability_modifier(score) = ⌊(score − 10) / 2⌋`; to_hit is the d20 roll
    plus attr_mod plus the proficiency bonus for the weapon's skill tag;
    the attack hits iff to_hit ≥ the target's AC, which `compute_ac` forms
    as 10 + summed armour_rating over equipped items + the dexterity
    modifier; damage is the weapon damage roll, doubled-die on a natural
    20, plus attr_mod on a hit and 0 on a miss; and the result carries
    exactly {hit, damage, to_hit, target_ac}. -/
theorem resolve_attack_spec (w : WorldState) (attacker target : NPC)
    (d20 dmg1 dmg2 : Int) (res : AttackResult)
    (h : resolve_attack w attacker target d20 dmg1 dmg2 = some res) :
    ∃ (weapon : ItemBlueprint) (attrMod : Int),
      get_weapon w attacker = some weapon ∧
      attrMod = (if "finesse" ∈ weapon.properties
                 then max (ability_modifier (getAttr attacker "strength"))
                          (ability_modifier (getAttr attacker "dexterity"))
                 else ability_modifier (getAttr attacker "strength")) ∧
      res.to_hit = d20 + attrMod
        + proficiency_bonus ((assocFind attacker.skills weapon.skill_tag).getD "") ∧
      compute_ac w target = some res.target_ac ∧
      res.target_ac = 10 + armourSumList w (target.slots.map Prod.snd)
        + ability_modifier (getAttr target "dexterity") ∧
      (res.hit = true ↔ res.target_ac ≤ res.to_hit) ∧
      (res.hit = true → res.damage = dmg1 + (if d20 = 20 then dmg2 else 0) + attrMod) ∧
      (res.hit = false → res.damage = 0) ∧
      (∀ s : Int, ability_modifier s = Int.fdiv (s - 10) 2) := by
  unfold resolve_attack at h
  cases hw : get_weapon w attacker with
  | none => rw [hw] at h; cases h
  | some weapon =>
    rw [hw] at h
    cases hac : compute_ac w target with
    | none => simp only [hac] at h; cases h
    | some ac =>
      simp only [hac] at h
      injection h with h
      subst h
      refine ⟨weapon, _, rfl, rfl, rfl, rfl, ?_, ?_, ?_, ?_, fun s => rfl⟩
      · exact compute_ac_spec w target ac hac
      · exact ⟨fun hb => of_decide_eq_true hb, fun hp => decide_eq_true hp⟩
      · intro hb
        have hb2 : decide ((d20 + (if "finesse" ∈ weapon.properties
            then max (ability_modifier (getAttr attacker "strength"))
                     (ability_modifier (getAttr attacker "dexterity"))
            else ability_modifier (getAttr attacker "strength"))
            + proficiency_bonus ((assocFind attacker.skills weapon.skill_tag).getD "")) ≥ ac)
            = true := hb
        show (if (decide _ = true) then _ else _) = _
        rw [if_pos hb2]
        by_cases hc : d20 = 20
        · rw [if_pos (decide_eq_true hc), if_pos hc]
        · rw [if_neg (by simpa using hc), if_neg hc]
      · intro hb
        have hb2 : decide ((d20 + (if "finesse" ∈ weapon.properties
            then max (ability_modifier (getAttr attacker "strength"))
                     (ability_modifier (getAttr attacker "dexterity"))
            else ability_modifier (getAttr attacker "strength"))
            + proficiency_bonus ((assocFind attacker.skills weapon.skill_tag).getD "")) ≥ ac)
            = false := hb
        show (if (decide _ = true) then _ else _) = _
        rw [if_neg (by simp [hb2])]

/-- A sample attacker for the C7 witness (spec §8 scenario 3): strength
    12, proficient in unarmed combat, no weapon equipped. -/
def atkSample : NPC :=
  { npcBase with id := "npc_sample", attributes := [("strength", 12)], skills := [("unarmed_combat", "proficient")] }

/-- A sample target for the C7 witness: dexterity 10, no armour. -/
def tgtSample : NPC :=
  { npcBase with id := "npc_enemy", attributes := [("dexterity", 10)] }

/-- C7 witness: the seeded scenario of spec §8 (d20 = 15, damage roll 3)
    satisfies the attack-resolution characterization. -/
theorem resolve_attack_spec_witness :
    ∃ (weapon : ItemBlueprint) (attrMod : Int),
      get_weapon emptyWorld atkSample = some weapon ∧
      attrMod = (if "finesse" ∈ weapon.properties
                 then max (ability_modifier (getAttr atkSample "strength"))
                          (ability_modifier (getAttr atkSample "dexterity"))
                 else ability_modifier (getAttr atkSample "strength")) ∧
      (AttackResult.mk true 4 18 10).to_hit = 15 + attrMod
        + proficiency_bonus ((assocFind atkSample.skills weapon.skill_tag).getD "") ∧
      compute_ac emptyWorld tgtSample = some (AttackResult.mk true 4 18 10).target_ac ∧
      (AttackResult.mk true 4 18 10).target_ac
        = 10 + armourSumList emptyWorld (tgtSample.slots.map Prod.snd)
          + ability_modifier (getAttr tgtSample "dexterity") ∧
      ((AttackResult.mk true 4 18 10).hit = true ↔
        (AttackResult.mk true 4 18 10).target_ac ≤ (AttackResult.mk true 4 18 10).to_hit) ∧
      ((AttackResult.mk true 4 18 10).hit = true →
        (AttackResult.mk true 4 18 10).damage
          = 3 + (if (15 : Int) = 20 then 0 else 0) + attrMod) ∧
      ((AttackResult.mk true 4 18 10).hit = false →
        (AttackResult.mk true 4 18 10).damage = 0) ∧
      (∀ s : Int, ability_modifier s = Int.fdiv (s - 10) 2) :=
  resolve_attack_spec emptyWorld atkSample tgtSample 15 3 0
    (AttackResult.mk true 4 18 10) (by decide)

/-! ## C8 — the perception projection drops `target_ids` -/

/-- A sample event whose `target_ids` are non-empty. -/
def grabSampleEvent : Event :=
  { event_type := "grab", tick := 3, actor_id := "npc_a",
    target_ids := ["item_1"], payload := [] }

/-- C8 counterexample: the projected PerceptionEvent does not carry the
    originating event's `target_ids` — at this concrete input the claim's
    required equality fails. -/
theorem perception_target_ids_counterexample :
    (make_perception_from_event grabSampleEvent (some "town_square")).target_ids
      ≠ grabSampleEvent.target_ids := by decide

/-- C8 (amended): the PerceptionEvent appended for each recipient carries
    the originating event's type, tick, actor_id, the computed primary
    location_id, and a copy of the payload, but its `target_ids` field is
    left at the dataclass default (the empty list) rather than copying the
    originating event's target_ids. -/
theorem perception_projection_amended (origin : Event) (loc : Option String) :
    make_perception_from_event origin loc =
      { event_type := origin.event_type, tick := origin.tick,
        actor_id := some origin.actor_id, target_ids := [],
        location_id := loc, payload := origin.payload } := rfl

/-! ## C9 — actor lookup precedes the unknown-tool check -/

/-- C9: for a command whose actor id is not a loaded agent,
    `process_command` fails with the lookup error even when the command's
    tool is also unregistered, because `get_npc` runs (and raises) before
    the unknown-tool check.  The `Except` result carries no state in the
    error case, mirroring that the source raises before any mutation. -/
theorem unknown_actor_lookup_first (tools : List (String × ToolSpec)) (s : Sim)
    (actorId cmdTool : String) (cmdParams : Payload)
    (h : assocFind s.world.npcs actorId = none) :
    process_command tools s actorId cmdTool cmdParams = .error .lookup := by
  unfold process_command
  rw [h]

/-- A simulator over the empty world for concrete instantiation. -/
def simEmpty : Sim :=
  { world := emptyWorld, game_tick := 0, event_queue := [],
    starvation_enabled := true, perception_buffer_size := 30 }

/-- C9 witness: unknown actor and a tool name that is registered nowhere
    still produce the lookup error. -/
theorem unknown_actor_lookup_first_witness :
    process_command [] simEmpty "ghost" "no_such_tool" [] = .error .lookup :=
  unknown_actor_lookup_first [] simEmpty "ghost" "no_such_tool" [] (by decide)

/-! ## C10 — npc_died for an agent outside every location -/

theorem applyEvent_npc_died (w : WorldState) (ev : Event)
    (h : ev.event_type = "npc_died") : applyEvent w ev = applyNpcDied w ev := by
  unfold applyEvent
  rw [h]
  rfl

/-- C10: applying `npc_died` for an agent that occupies no location adds
    the dead tag but leaves its inventory and equipment slots untouched
    (the item-dropping branch runs only under an occupied location), and
    every other world component and agent is unchanged. -/
theorem npc_died_no_location_frame (w : WorldState) (ev : Event) (npc : NPC)
    (htype : ev.event_type = "npc_died")
    (hfind : assocFind w.npcs ev.actor_id = some npc)
    (hnoloc : findNpcLocation w npc.id = none) :
    (applyEvent w ev).locations_state = w.locations_state ∧
    (applyEvent w ev).locations_static = w.locations_static ∧
    (applyEvent w ev).item_instances = w.item_instances ∧
    (applyEvent w ev).item_blueprints = w.item_blueprints ∧
    assocFind (applyEvent w ev).npcs ev.actor_id = some (markDead npc) ∧
    "dead" ∈ (markDead npc).tags.dynamic ∧
    (markDead npc).inventory = npc.inventory ∧
    (markDead npc).slots = npc.slots ∧
    (∀ k, k ≠ ev.actor_id →
      assocFind (applyEvent w ev).npcs k = assocFind w.npcs k) := by
  rw [applyEvent_npc_died w ev htype]
  unfold applyNpcDied
  refine ⟨?_, ?_, ?_, ?_, ?_, ?_, ?_, ?_, ?_⟩
  · simp only [hfind, hnoloc]
  · simp only [hfind, hnoloc]
  · simp only [hfind, hnoloc]
  · simp only [hfind, hnoloc]
  · simp only [hfind, hnoloc]
    show assocFind (assocUpdate w.npcs ev.actor_id markDead) ev.actor_id = some (markDead npc)
    rw [assocFind_update_self, hfind]
    rfl
  · unfold markDead
    by_cases hd : "dead" ∈ npc.tags.dynamic
    · rw [if_pos hd]; exact hd
    · rw [if_neg hd]
      exact List.mem_append_right _ (List.mem_singleton.mpr rfl)
  · unfold markDead; split <;> rfl
  · unfold markDead; split <;> rfl
  · intro k hk
    simp only [hfind, hnoloc]
    show assocFind (assocUpdate w.npcs ev.actor_id markDead) k = assocFind w.npcs k
    exact assocFind_update_ne _ _ _ _ hk

/-- A freshly dead agent carrying items but present in no location
    (C10 witness fixture). -/
def limboNpc : NPC :=
  { npcBase with id := "npc_limbo", inventory := ["item_keep"], slots := [("main_hand", some "item_worn")] }

/-- A world where `npc_limbo` is loaded but listed in no occupants
    (C10 witness fixture). -/
def limboWorld : WorldState :=
  { npcs := [("npc_limbo", limboNpc)], locations_static := [],
    locations_state := [("town_square", { id := "town_square", occupants := [], items := [], sublocations := [], transient_effects := [], connections_state := [] })],
    item_blueprints := [], item_instances := [] }

/-- The npc_died event for the location-less agent (C10 witness fixture). -/
def limboDeath : Event :=
  { event_type := "npc_died", tick := 4, actor_id := "npc_limbo", target_ids := [], payload := [] }

/-- C10 witness: at the concrete fixture, death in limbo keeps the
    inventory and slots while adding the dead tag. -/
theorem npc_died_no_location_frame_witness :
    (applyEvent limboWorld limboDeath).locations_state = limboWorld.locations_state ∧
    (applyEvent limboWorld limboDeath).locations_static = limboWorld.locations_static ∧
    (applyEvent limboWorld limboDeath).item_instances = limboWorld.item_instances ∧
    (applyEvent limboWorld limboDeath).item_blueprints = limboWorld.item_blueprints ∧
    assocFind (applyEvent limboWorld limboDeath).npcs limboDeath.actor_id = some (markDead limboNpc) ∧
    "dead" ∈ (markDead limboNpc).tags.dynamic ∧
    (markDead limboNpc).inventory = limboNpc.inventory ∧
    (markDead limboNpc).slots = limboNpc.slots ∧
    (∀ k, k ≠ limboDeath.actor_id →
      assocFind (applyEvent limboWorld limboDeath).npcs k = assocFind limboWorld.npcs k) :=
  npc_died_no_location_frame limboWorld limboDeath limboNpc rfl (by decide) (by decide)

/-! ## C1 — no cross-location perception for elevated_vantage_point -/

/-- An observer bearing the `elevated_vantage_point` inherent tag
    (C1 fixture). -/
def vantageWatcher : NPC :=
  { npcBase with id := "npc_watcher", tags := { inherent := ["elevated_vantage_point"], dynamic := [] } }

/-- The agent performing the observed grab (C1 fixture). -/
def vantageActor : NPC := { npcBase with id := "npc_actor" }

/-- Town square: the event's primary location, connected to the tavern
    (C1 fixture). -/
def vantageTownState : LocationState :=
  { id := "town_square", occupants := ["npc_actor"], items := ["item_x"],
    sublocations := [], transient_effects := [],
    connections_state := [("tavern", { status := some "closed", direction := some "east" })] }

/-- The tavern, occupied by the elevated watcher (C1 fixture). -/
def vantageTavernState : LocationState :=
  { id := "tavern", occupants := ["npc_watcher"], items := [],
    sublocations := [], transient_effects := [],
    connections_state := [("town_square", { status := some "closed", direction := some "west" })] }

/-- Static hex layout for the C1 fixture. -/
def vantageTownStatic : LocationStatic :=
  { id := "town_square", description := "the square", tags := { inherent := [], dynamic := [] },
    hex_connections := [("east", "tavern")] }

/-- Static hex layout for the C1 fixture, tavern side. -/
def vantageTavernStatic : LocationStatic :=
  { id := "tavern", description := "the tavern", tags := { inherent := [], dynamic := [] },
    hex_connections := [("west", "town_square")] }

/-- The two-location world of the C1 fixture. -/
def vantageWorld : WorldState :=
  { npcs := [("npc_actor", vantageActor), ("npc_watcher", vantageWatcher)],
    locations_static := [("town_square", vantageTownStatic), ("tavern", vantageTavernStatic)],
    locations_state := [("town_square", vantageTownState), ("tavern", vantageTavernState)],
    item_blueprints := [], item_instances := [] }

/-- The observed visual event: a grab in the town square (C1 fixture). -/
def vantageGrabEvent : Event :=
  { event_type := "grab", tick := 2, actor_id := "npc_actor",
    target_ids := ["item_x"], payload := [] }

/-- C1: the claim (and the record_perception comments, which assert the
    elevated-vantage rule is applied) fails on the code — at this input a
    `grab` (a visual event) happens one hex away from an agent bearing
    `elevated_vantage_point`, yet `record_perception` leaves that agent's
    STM buffer empty, because the implementing branch ends in `pass` and
    adds no recipients. -/
theorem elevated_vantage_no_cross_perception :
    "elevated_vantage_point" ∈ vantageWatcher.tags.inherent ∧
    assocFind vantageWorld.npcs "npc_watcher" = some vantageWatcher ∧
    vantageGrabEvent.event_type ∈ visualEvents ∧
    perceptionLocation vantageWorld vantageGrabEvent = some "town_square" ∧
    "tavern" ∈ vantageTownStatic.hex_connections.map Prod.snd ∧
    findNpcLocation vantageWorld "npc_watcher" = some "tavern" ∧
    (assocFind (record_perception 30 vantageWorld vantageGrabEvent).npcs "npc_watcher").map
      NPC.short_term_memory = some [] := by decide

/-! ## C2 — auditory propagation to neighbors -/

theorem mem_noiseAux_elim (w : WorldState) (evType : String) (stHere : LocationState)
    (l : List String) (npc : String)
    (h : npc ∈ noiseNeighborsAux w evType stHere l) :
    ∃ n ∈ l, (evType = "scream" ∨ connStatusD stHere n = "open") ∧
      ∃ st', assocFind w.locations_state n = some st' ∧ npc ∈ st'.occupants := by
  induction l with
  | nil => cases h
  | cons nb rest ih =>
    unfold noiseNeighborsAux at h
    by_cases hcond : evType = "scream" ∨ connStatusD stHere nb = "open"
    · rw [if_pos hcond] at h
      cases hlk : assocFind w.locations_state nb with
      | none => rw [hlk] at h; cases h
      | some nbSt =>
        rw [hlk] at h
        rcases List.mem_append.mp h with h1 | h2
        · exact ⟨nb, List.mem_cons_self nb rest, hcond, nbSt, hlk, h1⟩
        · obtain ⟨n, hn, hc, st', hlk', ho⟩ := ih h2
          exact ⟨n, List.mem_cons_of_mem nb hn, hc, st', hlk', ho⟩
    · rw [if_neg hcond] at h
      obtain ⟨n, hn, hc, st', hlk', ho⟩ := ih h
      exact ⟨n, List.mem_cons_of_mem nb hn, hc, st', hlk', ho⟩

theorem mem_noiseAux_intro (w : WorldState) (evType : String) (stHere : LocationState)
    (l : List String) (nb npc : String) (nbSt : LocationState)
    (hall : ∀ n ∈ l, (assocFind w.locations_state n).isSome)
    (hnb : nb ∈ l)
    (hcond : evType = "scream" ∨ connStatusD stHere nb = "open")
    (hlk : assocFind w.locations_state nb = some nbSt)
    (hocc : npc ∈ nbSt.occupants) :
    npc ∈ noiseNeighborsAux w evType stHere l := by
  induction l with
  | nil => cases hnb
  | cons a rest ih =>
    unfold noiseNeighborsAux
    have hall' : ∀ n ∈ rest, (assocFind w.locations_state n).isSome :=
      fun n hn => hall n (List.mem_cons_of_mem a hn)
    by_cases hconda : evType = "scream" ∨ connStatusD stHere a = "open"
    · rw [if_pos hconda]
      cases hlka : assocFind w.locations_state a with
      | none =>
        have := hall a (List.mem_cons_self a rest)
        rw [hlka] at this
        cases this
      | some aSt =>
        rcases List.mem_cons.mp hnb with he | hr
        · subst he
          rw [hlk] at hlka
          injection hlka with hlka
          subst hlka
          exact List.mem_append_left _ hocc
        · exact List.mem_append_right _ (ih hall' hr)
    · rcases List.mem_cons.mp hnb with he | hr
      · subst he
        exact absurd hcond hconda
      · rw [if_neg hconda]
        exact ih hall' hr

/-- C2: for every handled scream event, every occupant of every static
    hex neighbor of the primary location is a perception recipient
    regardless of the connecting edge's status; for every handled
    talk_loud event, an occupant of a neighbor (who is not also an
    occupant of the primary location or of another location) is a
    recipient if and only if the primary-side edge status to that
    neighbor is open (a missing status key defaults to open). -/
theorem scream_talk_loud_neighbor_recipients
    (w : WorldState) (ev : Event) (locId : String)
    (stat : LocationStatic) (stHere : LocationState)
    (npc nb : String) (nbSt : LocationState)
    (hloc : perceptionLocation w ev = some locId)
    (hstat : assocFind w.locations_static locId = some stat)
    (hstate : assocFind w.locations_state locId = some stHere)
    (hnb : nb ∈ stat.hex_connections.map Prod.snd)
    (hall : ∀ n ∈ stat.hex_connections.map Prod.snd, (assocFind w.locations_state n).isSome)
    (hnbSt : assocFind w.locations_state nb = some nbSt)
    (hocc : npc ∈ nbSt.occupants) :
    (ev.event_type = "scream" → npc ∈ perceptionRecipients w ev locId) ∧
    (ev.event_type = "talk_loud" →
      npc ∉ stHere.occupants →
      (∀ n st', n ≠ nb → assocFind w.locations_state n = some st' → npc ∉ st'.occupants) →
      (npc ∈ perceptionRecipients w ev locId ↔ connStatusD stHere nb = "open")) := by
  constructor
  · intro hty
    unfold perceptionRecipients
    rw [List.mem_dedup]
    apply List.mem_append_right
    rw [if_pos (Or.inl hty), hstat, hstate]
    exact mem_noiseAux_intro w ev.event_type stHere _ nb npc nbSt hall hnb
      (Or.inl hty) hnbSt hocc
  · intro hty hnd huniq
    unfold perceptionRecipients
    rw [List.mem_dedup]
    rw [if_pos (Or.inr hty)]
    simp only [hstat, hstate]
    constructor
    · intro hm
      rcases List.mem_append.mp hm with h1 | h2
      · exact absurd (List.mem_filter.mp h1).1 hnd
      · obtain ⟨n, _, hc, st', hlk', ho⟩ := mem_noiseAux_elim w ev.event_type stHere _ npc h2
        rcases hc with hsc | hop
        · rw [hty] at hsc
          exact absurd hsc (by decide)
        · by_cases hne : n = nb
          · subst hne
            exact hop
          · exact absurd ho (huniq n st' hne hlk')
    · intro hop
      apply List.mem_append_right
      exact mem_noiseAux_intro w ev.event_type stHere _ nb npc nbSt hall hnb
        (Or.inr hop) hnbSt hocc

/-! ## C3 — drop-then-grab round trip -/

theorem assocUpdate_comp {α : Type} (l : List (String × α)) (k : String) (f g : α → α) :
    assocUpdate (assocUpdate l k f) k g = assocUpdate l k (fun x => g (f x)) := by
  induction l with
  | nil => rfl
  | cons kv rest ih =>
    obtain ⟨a, v⟩ := kv
    by_cases h : a = k
    · rw [assocUpdate_cons, if_pos h, assocUpdate_cons, if_pos h, assocUpdate_cons, if_pos h, ih]
    · rw [assocUpdate_cons, if_neg h, assocUpdate_cons, if_neg h, assocUpdate_cons, if_neg h, ih]

theorem assocUpdate_congr_id {α : Type} (l : List (String × α)) (k : String) (f : α → α)
    (h : ∀ p ∈ l, p.1 = k → f p.2 = p.2) :
    assocUpdate l k f = l := by
  induction l with
  | nil => rfl
  | cons kv rest ih =>
    obtain ⟨a, v⟩ := kv
    have ih2 := ih (fun p hp hk => h p (List.mem_cons_of_mem _ hp) hk)
    by_cases ha : a = k
    · rw [assocUpdate_cons, if_pos ha, ih2, h (a, v) (List.mem_cons_self _ _) ha]
    · rw [assocUpdate_cons, if_neg ha, ih2]

theorem findNpcLocationAux_cons (nid a : String) (st : LocationState)
    (rest : List (String × LocationState)) :
    findNpcLocationAux nid ((a, st) :: rest) =
      if nid ∈ st.occupants then some a else findNpcLocationAux nid rest := rfl

theorem findNpcLocationAux_update (nid k : String) (f : LocationState → LocationState)
    (hf : ∀ st, (f st).occupants = st.occupants) (l : List (String × LocationState)) :
    findNpcLocationAux nid (assocUpdate l k f) = findNpcLocationAux nid l := by
  induction l with
  | nil => rfl
  | cons kv rest ih =>
    obtain ⟨a, st⟩ := kv
    by_cases ha : a = k
    · rw [assocUpdate_cons, if_pos ha, findNpcLocationAux_cons, findNpcLocationAux_cons, hf st, ih]
    · rw [assocUpdate_cons, if_neg ha, findNpcLocationAux_cons, findNpcLocationAux_cons, ih]

theorem findNpcLocationAux_lookup (nid : String) (l : List (String × LocationState))
    (locId : String) (h : findNpcLocationAux nid l = some locId) :
    ∃ st, assocFind l locId = some st := by
  induction l with
  | nil => cases h
  | cons kv rest ih =>
    obtain ⟨a, st⟩ := kv
    rw [findNpcLocationAux_cons] at h
    by_cases ho : nid ∈ st.occupants
    · rw [if_pos ho] at h
      injection h with h
      exact ⟨st, by rw [assocFind_cons, if_pos h]⟩
    · rw [if_neg ho] at h
      obtain ⟨st', hst'⟩ := ih h
      by_cases ha : a = locId
      · exact ⟨st, by rw [assocFind_cons, if_pos ha]⟩
      · exact ⟨st', by rw [assocFind_cons, if_neg ha]; exact hst'⟩

theorem applyEvent_drop (w : WorldState) (ev : Event)
    (h : ev.event_type = "drop") : applyEvent w ev = applyDrop w ev := by
  unfold applyEvent
  rw [h]
  rfl

theorem applyEvent_grab (w : WorldState) (ev : Event)
    (h : ev.event_type = "grab") : applyEvent w ev = applyGrab w ev := by
  unfold applyEvent
  rw [h]
  rfl

/-- The net effect of drop-then-grab on the holding agent: the item's
    first occurrence is removed from the inventory and the item is
    re-appended at the end. -/
def moveToEnd (item : String) (n : NPC) : NPC :=
  { n with inventory := removeFirst n.inventory item ++ [item] }

/-- A drop event for one item (`apply_event` reads only the fields set
    here; the payload is arbitrary). -/
def dropEventFor (aid item : String) (tk : Int) (p : Payload) : Event :=
  { event_type := "drop", tick := tk, actor_id := aid, target_ids := [item], payload := p }

/-- A grab event for one item. -/
def grabEventFor (aid item : String) (tk : Int) (p : Payload) : Event :=
  { event_type := "grab", tick := tk, actor_id := aid, target_ids := [item], payload := p }

/-- C3 (amended): dropping and re-grabbing a held item restores the
    locations' item lists, the item instance's owner_id and
    current_location, and every other agent and world component exactly
    (tick stamps are not part of the state `apply_event` writes and
    `next_available_tick` is untouched); the grabbing agent's inventory is
    restored as a multiset, but its order is not: the dropped item moves
    to the end of the inventory (first occurrence removed, item
    re-appended).  The hypotheses are the claim's premises plus the
    spec's global item invariants: the held item sits in no location's
    item list, and its instance records the holder and no location. -/
theorem drop_grab_roundtrip_amended
    (w : WorldState) (aid item locId : String) (npc : NPC)
    (tkD tkG : Int) (pD pG : Payload)
    (hfind : assocFind w.npcs aid = some npc)
    (hloc : findNpcLocation w aid = some locId)
    (hne : locId ≠ "")
    (hinv : item ∈ npc.inventory)
    (hitems : ∀ p ∈ w.locations_state, item ∉ p.2.items)
    (hinst : ∀ p ∈ w.item_instances, p.1 = item →
      p.2.owner_id = some aid ∧ p.2.current_location = none) :
    applyEvent (applyEvent w (dropEventFor aid item tkD pD)) (grabEventFor aid item tkG pG)
      = { w with npcs := assocUpdate w.npcs aid (moveToEnd item) } ∧
    assocFind
        (applyEvent (applyEvent w (dropEventFor aid item tkD pD))
          (grabEventFor aid item tkG pG)).npcs aid
      = some (moveToEnd item npc) ∧
    (removeFirst npc.inventory item ++ [item]).Perm npc.inventory := by
  obtain ⟨locSt, hstate⟩ := findNpcLocationAux_lookup aid w.locations_state locId hloc
  have hstep1 : applyEvent w (dropEventFor aid item tkD pD)
      = { w with
          npcs := assocUpdate w.npcs aid
            (fun n => { n with inventory := removeFirst n.inventory item }),
          locations_state := assocUpdate w.locations_state locId
            (fun st => { st with items := st.items ++ [item] }),
          item_instances := assocUpdate w.item_instances item
            (fun inst => { inst with owner_id := none, current_location := some locId }) } := by
    rw [applyEvent_drop _ _ rfl]
    unfold applyDrop dropEventFor
    simp only [List.head?_cons, hloc, hfind]
    rw [if_pos hne, if_pos hinv]
  rw [hstep1]
  set w1 : WorldState :=
    { w with
      npcs := assocUpdate w.npcs aid
        (fun n => { n with inventory := removeFirst n.inventory item }),
      locations_state := assocUpdate w.locations_state locId
        (fun st => { st with items := st.items ++ [item] }),
      item_instances := assocUpdate w.item_instances item
        (fun inst => { inst with owner_id := none, current_location := some locId }) }
    with hw1
  have hloc1 : findNpcLocation w1 aid = some locId := by
    rw [hw1]
    show findNpcLocationAux aid
      (assocUpdate w.locations_state locId (fun st => { st with items := st.items ++ [item] }))
      = some locId
    rw [findNpcLocationAux_update aid locId
      (fun st => { st with items := st.items ++ [item] }) (fun st => rfl)]
    exact hloc
  have hfind1 : assocFind w1.npcs aid
      = some { npc with inventory := removeFirst npc.inventory item } := by
    rw [hw1]
    show assocFind (assocUpdate w.npcs aid _) aid = _
    rw [assocFind_update_self, hfind]
    rfl
  have hstate1 : assocFind w1.locations_state locId
      = some { locSt with items := locSt.items ++ [item] } := by
    rw [hw1]
    show assocFind (assocUpdate w.locations_state locId _) locId = _
    rw [assocFind_update_self, hstate]
    rfl
  have hmem1 : item ∈ ({ locSt with items := locSt.items ++ [item] } : LocationState).items :=
    List.mem_append_right _ (List.mem_singleton.mpr rfl)
  have hstep2 : applyEvent w1 (grabEventFor aid item tkG pG)
      = { w1 with
          locations_state := assocUpdate w1.locations_state locId
            (fun st => { st with items := removeFirst st.items item }),
          npcs := assocUpdate w1.npcs aid
            (fun n => { n with inventory := n.inventory ++ [item] }),
          item_instances := assocUpdate w1.item_instances item
            (fun inst => { inst with owner_id := some aid, current_location := none }) } := by
    rw [applyEvent_grab _ _ rfl]
    unfold applyGrab grabEventFor
    simp only [List.head?_cons, hloc1, hstate1]
    rw [if_pos hne, if_pos hmem1]
  rw [hstep2]
  have hnpcs : assocUpdate (assocUpdate w.npcs aid
        (fun n => { n with inventory := removeFirst n.inventory item })) aid
        (fun n => { n with inventory := n.inventory ++ [item] })
      = assocUpdate w.npcs aid (moveToEnd item) := by
    rw [assocUpdate_comp]
    rfl
  have hlocs : assocUpdate (assocUpdate w.locations_state locId
        (fun st => { st with items := st.items ++ [item] })) locId
        (fun st => { st with items := removeFirst st.items item })
      = w.locations_state := by
    rw [assocUpdate_comp]
    apply assocUpdate_congr_id
    intro p hp hk
    show ({ p.2 with items := removeFirst (p.2.items ++ [item]) item } : LocationState) = p.2
    rw [removeFirst_append_self _ _ (hitems p hp)]
  have hinsts : assocUpdate (assocUpdate w.item_instances item
        (fun inst => { inst with owner_id := none, current_location := some locId })) item
        (fun inst => { inst with owner_id := some aid, current_location := none })
      = w.item_instances := by
    rw [assocUpdate_comp]
    apply assocUpdate_congr_id
    intro p hp hk
    obtain ⟨ho, hc⟩ := hinst p hp hk
    show ({ p.2 with owner_id := some aid, current_location := none } : ItemInstance) = p.2
    rw [← ho, ← hc]
  refine ⟨?_, ?_, removeFirst_perm npc.inventory item hinv⟩
  · show ({ w with
        npcs := assocUpdate (assocUpdate w.npcs aid _) aid _,
        locations_state := assocUpdate (assocUpdate w.locations_state locId _) locId _,
        item_instances := assocUpdate (assocUpdate w.item_instances item _) item _ }
        : WorldState) = _
    rw [hnpcs, hlocs, hinsts]
  · show assocFind (assocUpdate (assocUpdate w.npcs aid _) aid _) aid = _
    rw [hnpcs, assocFind_update_self, hfind]
    rfl

/-- The held item's pre-drop inventory position for the C3 counterexample:
    `item_first` sits in front of `item_second`. -/
def carrierNpc : NPC :=
  { npcBase with id := "npc_carrier", inventory := ["item_first", "item_second"] }

/-- The world of the C3 counterexample. -/
def carrierWorld : WorldState :=
  { npcs := [("npc_carrier", carrierNpc)],
    locations_static := [],
    locations_state := [("loc_yard",
      { id := "loc_yard", occupants := ["npc_carrier"], items := [],
        sublocations := [], transient_effects := [], connections_state := [] })],
    item_blueprints := [],
    item_instances := [("item_first",
      { id := "item_first", blueprint_id := "bp_generic",
        current_location := none, owner_id := some "npc_carrier" })] }

/-- C3 counterexample: dropping and re-grabbing `item_first` does not
    restore the inventory order — the claim's required equality of the
    agent's inventory (including order) fails at this concrete input. -/
theorem drop_grab_roundtrip_order_counterexample :
    (assocFind
        (applyEvent (applyEvent carrierWorld (dropEventFor "npc_carrier" "item_first" 1 []))
          (grabEventFor "npc_carrier" "item_first" 1 [])).npcs "npc_carrier").map NPC.inventory
      ≠ (assocFind carrierWorld.npcs "npc_carrier").map NPC.inventory := by decide

/-- C3 witness: the amended round trip at the concrete counterexample
    world, where the inventory comes back as a permutation with
    `item_first` moved to the end. -/
theorem drop_grab_roundtrip_amended_witness :
    applyEvent (applyEvent carrierWorld (dropEventFor "npc_carrier" "item_first" 1 []))
        (grabEventFor "npc_carrier" "item_first" 1 [])
      = { carrierWorld with npcs := assocUpdate carrierWorld.npcs "npc_carrier" (moveToEnd "item_first") } ∧
    assocFind
        (applyEvent (applyEvent carrierWorld (dropEventFor "npc_carrier" "item_first" 1 []))
          (grabEventFor "npc_carrier" "item_first" 1 [])).npcs "npc_carrier"
      = some (moveToEnd "item_first" carrierNpc) ∧
    (removeFirst carrierNpc.inventory "item_first" ++ ["item_first"]).Perm carrierNpc.inventory :=
  drop_grab_roundtrip_amended carrierWorld "npc_carrier" "item_first" "loc_yard" carrierNpc
    1 1 [] [] (by decide) (by decide) (by decide) (by decide)
    (by decide) (by decide)

/-! ## C6 — move through a closed edge fails validation -/

/-- C6: a move command whose normalized target is a dynamic neighbor of
    the actor's current location behind a closed edge fails with the
    invalid-intent error (the `Except` error carries no state: the source
    raises before generating events, touching occupants, or advancing
    `next_available_tick`); and a move command succeeds only when the
    normalized target is a loaded location that is listed in the dynamic
    `connections_state` of the actor's current location with edge status
    open (a missing status key defaults to open). -/
theorem move_closed_edge_invalid_intent
    (tools : List (String × ToolSpec)) (s : Sim) (actorId : String)
    (cmdParams : Payload) (actor : NPC)
    (htool : assocFind tools "move" = some moveTool)
    (hactor : assocFind s.world.npcs actorId = some actor)
    (hbusy : ¬ actor.next_available_tick > s.game_tick) :
    (∀ (T L : String) (st : LocationState) (conn : ConnEntry),
      paramStr (normalizeParams "move" cmdParams) "target_location" = some T →
      findNpcLocation s.world actor.id = some L →
      assocFind s.world.locations_state L = some st →
      assocFind st.connections_state T = some conn →
      conn.status = some "closed" →
      process_command tools s actorId "move" cmdParams = .error .invalidIntent) ∧
    (∀ s2, process_command tools s actorId "move" cmdParams = .ok s2 →
      ∃ T, paramStr (normalizeParams "move" cmdParams) "target_location" = some T ∧
        T ≠ "" ∧ (assocFind s.world.locations_state T).isSome ∧
        ∃ L, findNpcLocation s.world actor.id = some L ∧ L ≠ "" ∧
          ∃ st, assocFind s.world.locations_state L = some st ∧
            ∃ conn, assocFind st.connections_state T = some conn ∧
              connStatusD st T = "open") := by
  constructor
  · intro T L st conn hT hL hst hconn hclosed
    have hval : moveValidate (normalizeParams "move" cmdParams) s.world actor = false := by
      unfold moveValidate
      simp only [hT]
      by_cases hTe : T = ""
      · rw [if_pos hTe]
      · rw [if_neg hTe]
        by_cases hTn : (assocFind s.world.locations_state T).isNone
        · rw [if_pos hTn]
        · rw [if_neg hTn]
          simp only [hL]
          by_cases hLe : L = ""
          · rw [if_pos hLe]
          · rw [if_neg hLe]
            simp only [hst]
            rw [if_neg (by rw [hconn]; exact Bool.false_ne_true)]
            rw [if_neg (by unfold connStatusD; simp [hconn, hclosed])]
    unfold process_command
    simp only [hactor, htool]
    rw [if_neg hbusy]
    rw [if_neg (by rw [show moveTool.validate = moveValidate from rfl, hval]; exact Bool.false_ne_true)]
  · intro s2 hok
    unfold process_command at hok
    simp only [hactor, htool] at hok
    rw [if_neg hbusy] at hok
    by_cases hval : moveTool.validate (normalizeParams "move" cmdParams) s.world actor = true
    · have hv : moveValidate (normalizeParams "move" cmdParams) s.world actor = true := hval
      unfold moveValidate at hv
      cases hT : paramStr (normalizeParams "move" cmdParams) "target_location" with
      | none => simp only [hT] at hv; exact absurd hv (by decide)
      | some T =>
        simp only [hT] at hv
        by_cases hTe : T = ""
        · rw [if_pos hTe] at hv; cases hv
        · rw [if_neg hTe] at hv
          by_cases hTn : (assocFind s.world.locations_state T).isNone
          · rw [if_pos hTn] at hv; cases hv
          · rw [if_neg hTn] at hv
            cases hL : findNpcLocation s.world actor.id with
            | none => simp only [hL] at hv; exact absurd hv (by decide)
            | some L =>
              simp only [hL] at hv
              by_cases hLe : L = ""
              · rw [if_pos hLe] at hv; cases hv
              · rw [if_neg hLe] at hv
                cases hst : assocFind s.world.locations_state L with
                | none => simp only [hst] at hv; exact absurd hv (by decide)
                | some st =>
                  simp only [hst] at hv
                  by_cases hcn : (assocFind st.connections_state T).isNone
                  · rw [if_pos hcn] at hv; cases hv
                  · rw [if_neg hcn] at hv
                    by_cases hop : connStatusD st T = "open"
                    · refine ⟨T, rfl, hTe, ?_, L, rfl, hLe, st, hst, ?_⟩
                      · cases ho : assocFind s.world.locations_state T with
                        | none => exact absurd (by rw [ho]; rfl) hTn
                        | some v => rfl
                      · cases hc2 : assocFind st.connections_state T with
                        | none => exact absurd (by rw [hc2]; rfl) hcn
                        | some conn => exact ⟨conn, rfl, hop⟩
                    · rw [if_neg hop] at hv; cases hv
    · rw [if_neg hval] at hok
      cases hok

/-- The simulator wrapping the C1 two-location world (C6 witness
    fixture). -/
def simVantage : Sim :=
  { world := vantageWorld, game_tick := 0, event_queue := [],
    starvation_enabled := true, perception_buffer_size := 30 }

/-- C6 witness: moving from the town square to the tavern through the
    closed edge is rejected as an invalid intent. -/
theorem move_closed_edge_invalid_intent_witness :
    process_command [("move", moveTool)] simVantage "npc_actor" "move"
      [("target_location", .pstr "tavern")] = .error .invalidIntent :=
  (move_closed_edge_invalid_intent [("move", moveTool)] simVantage "npc_actor"
      [("target_location", .pstr "tavern")] vantageActor rfl (by decide) (by decide)).1
    "tavern" "town_square" vantageTownState
    { status := some "closed", direction := some "east" }
    (by decide) (by decide) (by decide) (by decide) rfl

/-- The scream used by the C2 witness, emitted in the town square next to
    the closed tavern door of the C1 fixture world. -/
def screamEvent : Event :=
  { event_type := "scream", tick := 2, actor_id := "npc_actor",
    target_ids := [], payload := [("content", .pstr "help")] }

/-- C2 witness: with the town_square–tavern edge closed, the scream still
    reaches the tavern occupant. -/
theorem scream_talk_loud_neighbor_recipients_witness :
    "npc_watcher" ∈ perceptionRecipients vantageWorld screamEvent "town_square" :=
  (scream_talk_loud_neighbor_recipients vantageWorld screamEvent "town_square"
    vantageTownStatic vantageTownState "npc_watcher" "tavern" vantageTavernState
    (by decide) (by decide) (by decide) (by decide) (by decide) (by decide) (by decide)).1 rfl

/-! ## C4 — the dead tag and the tick drain snapshot -/

theorem payloadInt_single (k : String) (n d : Int) :
    payloadInt [(k, .pint n)] k d = n := by
  unfold payloadInt assocFind
  rw [if_pos rfl]

theorem mem_dead_markDead (n : NPC) : "dead" ∈ (markDead n).tags.dynamic := by
  unfold markDead
  by_cases h : "dead" ∈ n.tags.dynamic
  · rw [if_pos h]; exact h
  · rw [if_neg h]
    exact List.mem_append_right _ (List.mem_singleton.mpr rfl)

theorem lookup_then_markDead (npcs : List (String × NPC)) (key : String) (m : NPC)
    (h : assocFind npcs key = some m) :
    ∃ n2, assocFind (assocUpdate npcs key markDead) key = some n2 ∧
      "dead" ∈ n2.tags.dynamic :=
  ⟨markDead m, by rw [assocFind_update_self, h]; rfl, mem_dead_markDead m⟩

theorem applyNpcDied_dead (w : WorldState) (ev : Event) (n : NPC)
    (hfind : assocFind w.npcs ev.actor_id = some n) :
    ∃ n2, assocFind (applyNpcDied w ev).npcs ev.actor_id = some n2 ∧
      "dead" ∈ n2.tags.dynamic := by
  unfold applyNpcDied
  simp only [hfind]
  cases hl : findNpcLocation w n.id with
  | none =>
    simp only [hl]
    exact lookup_then_markDead w.npcs ev.actor_id n hfind
  | some locId =>
    simp only [hl]
    by_cases he : locId ≠ ""
    · rw [if_pos he]
      cases hls : assocFind w.locations_state locId with
      | none =>
        simp only [hls]
        exact lookup_then_markDead w.npcs ev.actor_id n hfind
      | some locSt =>
        simp only [hls]
        by_cases ho : n.id ∈ locSt.occupants
        · rw [if_pos ho]
          apply lookup_then_markDead
          show assocFind (assocUpdate w.npcs ev.actor_id _) ev.actor_id = _
          rw [assocFind_update_self, hfind]
          rfl
        · rw [if_neg ho]
          exact lookup_then_markDead w.npcs ev.actor_id n hfind
    · rw [if_neg he]
      exact lookup_then_markDead w.npcs ev.actor_id n hfind

theorem record_perception_lookup (cap : Nat) (w : WorldState) (ev : Event)
    (k : String) (m : NPC) (h : assocFind w.npcs k = some m) :
    ∃ x, assocFind (record_perception cap w ev).npcs k = some x ∧
      x.id = m.id ∧ x.hp = m.hp ∧ x.tags = m.tags := by
  have hc := record_perception_npcCore cap w ev k
  rw [h] at hc
  cases hx : assocFind (record_perception cap w ev).npcs k with
  | none => rw [hx] at hc; cases hc
  | some x =>
    rw [hx] at hc
    injection hc with hc
    exact ⟨x, rfl, congrArg (fun p => p.1) hc, congrArg (fun p => p.2.1) hc,
      congrArg (fun p => p.2.2.1) hc⟩

theorem applyEvent_damage (w : WorldState) (ev : Event)
    (h : ev.event_type = "damage_applied") : applyEvent w ev = applyDamage w ev := by
  unfold applyEvent
  rw [h]
  rfl

theorem handleEvent_other (s : Sim) (ev : Event)
    (hne : ev.event_type ≠ "damage_applied") :
    handleEvent s ev =
      { s with
        world := record_perception (max 1 s.perception_buffer_size)
          (applyEvent s.world ev) ev } := by
  simp only [handleEvent]
  rw [if_neg hne]

theorem handleEvent_damage_dying (s : Sim) (tkE amt : Int) (act tid : String) (tgt : NPC)
    (hlk : assocFind (applyEvent s.world
        ⟨"damage_applied", tkE, act, [tid], [("amount", .pint amt)]⟩).npcs tid = some tgt)
    (hcond : tgt.hp ≤ 0 ∧ "dead" ∉ tgt.tags.dynamic) :
    handleEvent s ⟨"damage_applied", tkE, act, [tid], [("amount", .pint amt)]⟩ =
      { s with
        world := record_perception (max 1 s.perception_buffer_size)
          (applyEvent s.world ⟨"damage_applied", tkE, act, [tid], [("amount", .pint amt)]⟩)
          ⟨"damage_applied", tkE, act, [tid], [("amount", .pint amt)]⟩,
        event_queue := s.event_queue ++
          [deathFollowUp
            (applyEvent s.world ⟨"damage_applied", tkE, act, [tid], [("amount", .pint amt)]⟩)
            tgt s.game_tick] } := by
  simp only [handleEvent]
  rw [if_pos (trivial : True)]
  simp only [List.head?_cons, hlk]
  rw [if_pos hcond]

theorem tick_drains (s : Sim) (hstarve : s.starvation_enabled = false)
    (hall : ∀ e ∈ s.event_queue, e.tick ≤ s.game_tick + 1) :
    tick s = s.event_queue.foldl handleEvent
      { s with game_tick := s.game_tick + 1, event_queue := [] } := by
  simp only [tick]
  rw [if_neg (by show ¬ s.starvation_enabled = true; rw [hstarve]; exact Bool.false_ne_true)]
  have hr : s.event_queue.filter (fun e => decide (e.tick ≤ s.game_tick + 1))
      = s.event_queue :=
    List.filter_eq_self.mpr (fun e he => decide_eq_true (hall e he))
  have hn : s.event_queue.filter (fun e => decide (¬ e.tick ≤ s.game_tick + 1)) = [] := by
    rw [List.filter_eq_nil_iff]
    intro e he
    simp only [decide_not, Bool.not_eq_true']
    intro hfalse
    rw [decide_eq_true (hall e he)] at hfalse
    cases hfalse
  rw [hr, hn]

/-- The hp clamp performed by the `damage_applied` branch of
    `apply_event`. -/
def hpClamp (amt : Int) (n : NPC) : NPC := { n with hp := max (n.hp - amt) 0 }

theorem tick_npc_died_dead (S : Sim) (w : WorldState) (tgt : NPC) (tk : Int)
    (key : String) (n1 : NPC)
    (hkey : tgt.id = key)
    (hst : S.starvation_enabled = false)
    (hq : S.event_queue = [deathFollowUp w tgt tk])
    (htk : tk ≤ S.game_tick + 1)
    (hlk : assocFind S.world.npcs key = some n1) :
    ∃ n2, assocFind (tick S).world.npcs key = some n2 ∧ "dead" ∈ n2.tags.dynamic := by
  have hall : ∀ e ∈ S.event_queue, e.tick ≤ S.game_tick + 1 := by
    rw [hq]
    intro e he
    rw [List.mem_singleton] at he
    subst he
    exact htk
  have h1 : tick S = handleEvent { S with game_tick := S.game_tick + 1, event_queue := [] }
      (deathFollowUp w tgt tk) := by
    rw [tick_drains S hst hall, hq]
    rfl
  have hlk2 : assocFind S.world.npcs (deathFollowUp w tgt tk).actor_id = some n1 := by
    rw [show (deathFollowUp w tgt tk).actor_id = key from hkey]
    exact hlk
  obtain ⟨n2p, hn2p, hd2p⟩ := applyNpcDied_dead S.world (deathFollowUp w tgt tk) n1 hlk2
  have hn2k : assocFind (applyNpcDied S.world (deathFollowUp w tgt tk)).npcs key = some n2p := by
    rw [← show (deathFollowUp w tgt tk).actor_id = key from hkey]
    exact hn2p
  obtain ⟨n2, hn2, _, _, ht2⟩ := record_perception_lookup (max 1 S.perception_buffer_size)
    (applyNpcDied S.world (deathFollowUp w tgt tk)) (deathFollowUp w tgt tk) key n2p hn2k
  refine ⟨n2, ?_, ?_⟩
  · rw [h1, handleEvent_other _ _ (by show ("npc_died" : String) ≠ "damage_applied"; decide)]
    show assocFind (record_perception (max 1 S.perception_buffer_size)
      (applyEvent S.world (deathFollowUp w tgt tk)) (deathFollowUp w tgt tk)).npcs key = some n2
    rw [applyEvent_npc_died _ _ rfl]
    exact hn2
  · rw [ht2]
    exact hd2p

/-- C4 (amended): when a `damage_applied` event that brings a live
    agent's hp to 0 drains during `tick()`, the handler enqueues an
    `npc_died` follow-up at the current tick, but `tick()` drains only
    the snapshot taken before handling, so after that call returns the
    agent has hp ≤ 0 while "dead" is not yet in its dynamic tags and the
    follow-up is still queued; the follow-up is processed by the NEXT
    call to `tick()`, after which "dead" is in the agent's dynamic
    tags. -/
theorem dead_tag_next_tick_amended
    (s : Sim) (tid act : String) (amt tkE : Int) (npc : NPC)
    (hq : s.event_queue = [⟨"damage_applied", tkE, act, [tid], [("amount", .pint amt)]⟩])
    (hstarve : s.starvation_enabled = false)
    (htk : tkE ≤ s.game_tick + 1)
    (hfind : assocFind s.world.npcs tid = some npc)
    (hid : npc.id = tid)
    (hhp : npc.hp ≤ amt)
    (hdead : "dead" ∉ npc.tags.dynamic) :
    (∃ n1, assocFind (tick s).world.npcs tid = some n1 ∧
      n1.hp ≤ 0 ∧ "dead" ∉ n1.tags.dynamic) ∧
    (∃ e ∈ (tick s).event_queue, e.event_type = "npc_died" ∧
      e.tick = (tick s).game_tick ∧ e.actor_id = tid) ∧
    (∃ n2, assocFind (tick (tick s)).world.npcs tid = some n2 ∧
      "dead" ∈ n2.tags.dynamic) := by
  have hall1 : ∀ e ∈ s.event_queue, e.tick ≤ s.game_tick + 1 := by
    rw [hq]
    intro e he
    rw [List.mem_singleton] at he
    subst he
    exact htk
  have h1 : tick s = handleEvent { s with game_tick := s.game_tick + 1, event_queue := [] }
      ⟨"damage_applied", tkE, act, [tid], [("amount", .pint amt)]⟩ := by
    rw [tick_drains s hstarve hall1, hq]
    rfl
  have happ : applyEvent s.world ⟨"damage_applied", tkE, act, [tid], [("amount", .pint amt)]⟩
      = { s.world with npcs := assocUpdate s.world.npcs tid (hpClamp amt) } := by
    rw [applyEvent_damage _ _ rfl]
    unfold applyDamage
    simp only [List.head?_cons]
    rw [payloadInt_single]
    rfl
  have hclamp : hpClamp amt npc = { npc with hp := (0 : Int) } := by
    unfold hpClamp
    rw [show max (npc.hp - amt) 0 = 0 from max_eq_right (by omega)]
  have hlkD : assocFind
      (applyEvent s.world ⟨"damage_applied", tkE, act, [tid], [("amount", .pint amt)]⟩).npcs tid
      = some { npc with hp := (0 : Int) } := by
    rw [happ]
    show assocFind (assocUpdate s.world.npcs tid (hpClamp amt)) tid = _
    rw [assocFind_update_self, hfind]
    show some (hpClamp amt npc) = _
    rw [hclamp]
  have h2 := handleEvent_damage_dying
    { s with game_tick := s.game_tick + 1, event_queue := [] } tkE amt act tid
    { npc with hp := (0 : Int) } hlkD ⟨le_refl 0, hdead⟩
  have hTick1 : tick s = { s with
      game_tick := s.game_tick + 1,
      world := record_perception (max 1 s.perception_buffer_size)
        (applyEvent s.world ⟨"damage_applied", tkE, act, [tid], [("amount", .pint amt)]⟩)
        ⟨"damage_applied", tkE, act, [tid], [("amount", .pint amt)]⟩,
      event_queue := [deathFollowUp
        (applyEvent s.world ⟨"damage_applied", tkE, act, [tid], [("amount", .pint amt)]⟩)
        { npc with hp := (0 : Int) } (s.game_tick + 1)] } := by
    rw [h1, h2]
    rfl
  obtain ⟨n1, hn1, hid1, hhp1, htags1⟩ := record_perception_lookup
    (max 1 s.perception_buffer_size)
    (applyEvent s.world ⟨"damage_applied", tkE, act, [tid], [("amount", .pint amt)]⟩)
    ⟨"damage_applied", tkE, act, [tid], [("amount", .pint amt)]⟩ tid
    { npc with hp := (0 : Int) } hlkD
  have hact : (deathFollowUp
      (applyEvent s.world ⟨"damage_applied", tkE, act, [tid], [("amount", .pint amt)]⟩)
      { npc with hp := (0 : Int) } (s.game_tick + 1)).actor_id = tid := hid
  refine ⟨⟨n1, ?_, ?_, ?_⟩, ?_, ?_⟩
  · rw [hTick1]
    exact hn1
  · rw [hhp1]
  · rw [htags1]
    exact hdead
  · refine ⟨deathFollowUp
      (applyEvent s.world ⟨"damage_applied", tkE, act, [tid], [("amount", .pint amt)]⟩)
      { npc with hp := (0 : Int) } (s.game_tick + 1), ?_, rfl, ?_, hact⟩
    · rw [hTick1]
      exact List.mem_singleton.mpr rfl
    · rw [hTick1]
      rfl
  · rw [hTick1]
    refine tick_npc_died_dead _
      (applyEvent s.world ⟨"damage_applied", tkE, act, [tid], [("amount", .pint amt)]⟩)
      { npc with hp := (0 : Int) } (s.game_tick + 1) tid n1 hid hstarve rfl ?_ hn1
    show s.game_tick + 1 ≤ s.game_tick + 1 + 1
    omega

/-- An agent with 3 hp about to take lethal damage (C4 fixture). -/
def mortalNpc : NPC := { npcBase with id := "npc_mortal", hp := 3 }

/-- The world of the C4 fixture. -/
def mortalWorld : WorldState :=
  { npcs := [("npc_mortal", mortalNpc)],
    locations_static := [],
    locations_state := [("town_square",
      { id := "town_square", occupants := ["npc_mortal"], items := [],
        sublocations := [], transient_effects := [], connections_state := [] })],
    item_blueprints := [], item_instances := [] }

/-- The simulator of the C4 fixture: one queued lethal damage event. -/
def mortalSim : Sim :=
  { world := mortalWorld, game_tick := 0,
    event_queue := [⟨"damage_applied", 1, "npc_mortal", ["npc_mortal"], [("amount", .pint 3)]⟩],
    starvation_enabled := false, perception_buffer_size := 30 }

/-- C4 counterexample: after the `tick()` call that handles the lethal
    damage returns, the agent's hp is ≤ 0 but "dead" is not in its
    dynamic tags — the claim's required invariant fails at this concrete
    input because the npc_died follow-up is not drained in the same
    tick. -/
theorem dead_tag_same_tick_counterexample :
    (assocFind (tick mortalSim).world.npcs "npc_mortal").map
      (fun n => (decide (n.hp ≤ 0), decide ("dead" ∈ n.tags.dynamic))) = some (true, false) := by
  decide

/-- C4 witness: at the concrete fixture, one tick leaves the agent at
    hp 0 and untagged with the npc_died follow-up queued, and the next
    tick adds the dead tag. -/
theorem dead_tag_next_tick_amended_witness :
    (∃ n1, assocFind (tick mortalSim).world.npcs "npc_mortal" = some n1 ∧
      n1.hp ≤ 0 ∧ "dead" ∉ n1.tags.dynamic) ∧
    (∃ e ∈ (tick mortalSim).event_queue, e.event_type = "npc_died" ∧
      e.tick = (tick mortalSim).game_tick ∧ e.actor_id = "npc_mortal") ∧
    (∃ n2, assocFind (tick (tick mortalSim)).world.npcs "npc_mortal" = some n2 ∧
      "dead" ∈ n2.tags.dynamic) :=
  dead_tag_next_tick_amended mortalSim "npc_mortal" "npc_mortal" 3 1 mortalNpc
    rfl rfl (by decide) (by decide) rfl (by decide) (by decide)

end Tapestry
